import Mathlib

/-
Verification of the Spin Cycle chain-traversal core (job-runner/chain/chain.go)
and the spinc find-command filter parsing (spinc/cmd/find.go).

Go maps are embedded as association lists (first binding wins on lookup,
matching the unique-key discipline of Go maps); Go `uint` is embedded as Nat
and Go `int` as Int, with the machine conversions and additions the
increment operations perform (uint-to-int and int-to-uint reinterpretation,
uint and int addition) modelled by explicit two's-complement wraps modulo
2^64. Functions that can panic return an Option, with none standing for the
panic.
-/

namespace SpinCycle

/-- Modelled from the spec: the job/chain state constants live in the proto
package, which is not under src/. The spec lists the valid job states as
PENDING, RUNNING, COMPLETE, FAIL, STOPPED, UNKNOWN; states are bytes, and
only distinctness of the constants is observable in the core. -/
def STATE_UNKNOWN : Nat := 0

def STATE_PENDING : Nat := 1

def STATE_RUNNING : Nat := 2

def STATE_COMPLETE : Nat := 3

def STATE_FAIL : Nat := 4

def STATE_STOPPED : Nat := 6

/-- Modelled from the spec: a job state is valid when it is one of the six
states the spec enumerates. -/
def validState (s : Nat) : Prop :=
  s = STATE_PENDING ∨ s = STATE_RUNNING ∨ s = STATE_COMPLETE ∨
    s = STATE_FAIL ∨ s = STATE_STOPPED ∨ s = STATE_UNKNOWN

instance (s : Nat) : Decidable (validState s) := by
  unfold validState; infer_instance

/-- Modelled from the spec: proto.Job (the proto package is not under src/).
The spec says a job carries an Id, a State, a SequenceId, a SequenceRetry
budget, a per-job Retry budget, and opaque Data that the core neither reads
nor interprets; Data is a map that may be nil (none). -/
structure Job where
  Id : String
  State : Nat
  SequenceId : String
  SequenceRetry : Nat
  Retry : Nat
  Data : Option (List (String × String))
deriving Repr, DecidableEq

/-- Go zero value of proto.Job: empty strings, state byte 0, nil Data. -/
def zeroJob : Job :=
  { Id := "", State := 0, SequenceId := "", SequenceRetry := 0, Retry := 0, Data := none }

/-- Modelled from the spec: proto.JobChain (proto package not under src/):
RequestId, Jobs map, AdjacencyList of forward edges, FinishedJobs counter,
chain-level State byte. -/
structure JobChain where
  RequestId : String
  Jobs : List (String × Job)
  AdjacencyList : List (String × List String)
  State : Nat
  FinishedJobs : Nat
deriving Repr, DecidableEq

/-- The Chain struct of chain.go: a JobChain plus the three try-counter maps.
The two mutexes guard concurrent access only and have no sequential content. -/
structure Chain where
  jobChain : JobChain
  sequenceTries : List (String × Nat)
  latestRunJobTries : List (String × Nat)
  totalJobTries : List (String × Nat)
deriving Repr, DecidableEq

/-- Modelled from the spec: proto.SuspendedJobChain (proto package not under
src/): RequestId, the JobChain, and the three try maps. -/
structure SuspendedJobChain where
  RequestId : String
  JobChain : SpinCycle.JobChain
  TotalJobTries : List (String × Nat)
  LatestRunJobTries : List (String × Nat)
  SequenceTries : List (String × Nat)
deriving Repr, DecidableEq

/-- Go map read with the zero value as default: jc.Jobs[id]. -/
def jobsGet (m : List (String × Job)) (k : String) : Job :=
  (List.lookup k m).getD zeroJob

/-- Go map read with the zero value as default: tries[id]. -/
def triesGet (m : List (String × Nat)) (k : String) : Nat :=
  (List.lookup k m).getD 0

/-- Go map write m[k] = v: replace the first binding of k, or append one. -/
def mapSet {α : Type} : List (String × α) → String → α → List (String × α)
  | [], k, v => [(k, v)]
  | (k', v') :: rest, k, v =>
      if k' = k then (k, v) :: rest else (k', v') :: mapSet rest k v

/-- contains (chain.go): whether a slice of strings contains a string. -/
def containsStr : List String → String → Bool
  | [], _ => false
  | i :: rest, t => if i = t then true else containsStr rest t

/-- Go conversion uint(i) of a possibly negative int: two's-complement wrap
modulo 2^64. -/
def goUintOfInt (i : Int) : Nat :=
  (i % (2 : Int) ^ 64).toNat

/-- Go conversion int(u) of a uint: two's-complement reinterpretation of the
64-bit pattern, landing in the interval from -2^63 up to 2^63 - 1. -/
def goIntOfUint (u : Nat) : Int :=
  if u % 2 ^ 64 < 2 ^ 63 then ((u % 2 ^ 64 : Nat) : Int)
  else ((u % 2 ^ 64 : Nat) : Int) - 2 ^ 64

/-- Go int (64-bit) addition: wraps into the interval from -2^63 up to
2^63 - 1. -/
def goAddInt (a b : Int) : Int :=
  (a + b + 2 ^ 63) % 2 ^ 64 - 2 ^ 63

/-- Go uint (64-bit) addition: wraps modulo 2^64. -/
def goUintAdd (a b : Nat) : Nat :=
  (a + b) % 2 ^ 64

/-- The loop body of NewChain: if job.Data == nil, set it to an empty map. -/
def materializeData (j : Job) : Job :=
  if j.Data.isNone then { j with Data := some [] } else j

/-- NewChain (chain.go): materialize a non-nil Data map on every job, then
wrap the JobChain and the three try maps into a Chain. -/
def NewChain (jc : JobChain) (sequenceTries totalJobTries latestRunJobTries : List (String × Nat)) :
    Chain :=
  { jobChain := { jc with Jobs := jc.Jobs.map (fun e => (e.1, materializeData e.2)) }
    sequenceTries := sequenceTries
    totalJobTries := totalJobTries
    latestRunJobTries := latestRunJobTries }

/-- NextJobs (chain.go): the jobs adjacent to the given job; ids missing from
the Jobs map are skipped. -/
def Chain.NextJobs (c : Chain) (jobId : String) : List Job :=
  match List.lookup jobId c.jobChain.AdjacencyList with
  | some nextJobIds => nextJobIds.filterMap (fun id => List.lookup id c.jobChain.Jobs)
  | none => []

/-- previousJobs (chain.go): all jobs with an adjacency-list edge into jobId;
adjacency keys missing from the Jobs map are skipped. -/
def Chain.previousJobs (c : Chain) (jobId : String) : List Job :=
  c.jobChain.AdjacencyList.filterMap
    (fun e => if containsStr e.2 jobId then List.lookup e.1 c.jobChain.Jobs else none)

/-- isRunnable (chain.go): state is PENDING and every previous job COMPLETE. -/
def Chain.isRunnable (c : Chain) (jobId : String) : Bool :=
  if (jobsGet c.jobChain.Jobs jobId).State ≠ STATE_PENDING then false
  else (c.previousJobs jobId).all (fun j => j.State == STATE_COMPLETE)

/-- IsRunnable (chain.go): the public, locking wrapper of isRunnable. -/
def Chain.IsRunnable (c : Chain) (jobId : String) : Bool :=
  c.isRunnable jobId

/-- RunnableJobs (chain.go): every job of the chain whose id passes IsRunnable. -/
def Chain.RunnableJobs (c : Chain) : List Job :=
  c.jobChain.Jobs.filterMap (fun e => if c.IsRunnable e.1 then some e.2 else none)

/-- sequenceStartJob (chain.go): Jobs[Jobs[jobId].SequenceId]. -/
def Chain.sequenceStartJob (c : Chain) (jobId : String) : Job :=
  jobsGet c.jobChain.Jobs (jobsGet c.jobChain.Jobs jobId).SequenceId

/-- SequenceStartJob (chain.go): the public, locking wrapper. -/
def Chain.SequenceStartJob (c : Chain) (jobId : String) : Job :=
  jobsGet c.jobChain.Jobs (jobsGet c.jobChain.Jobs jobId).SequenceId

/-- IsSequenceStartJob (chain.go): jobId == Jobs[jobId].SequenceId. -/
def Chain.IsSequenceStartJob (c : Chain) (jobId : String) : Bool :=
  jobId == (jobsGet c.jobChain.Jobs jobId).SequenceId

/-- canRetrySequence (chain.go): sequenceTries of the sequence-start job's Id
is at most its SequenceRetry budget. -/
def Chain.canRetrySequence (c : Chain) (jobId : String) : Bool :=
  decide (triesGet c.sequenceTries (c.sequenceStartJob jobId).Id ≤
    (c.sequenceStartJob jobId).SequenceRetry)

/-- CanRetrySequence (chain.go): the public wrapper, via SequenceStartJob. -/
def Chain.CanRetrySequence (c : Chain) (jobId : String) : Bool :=
  decide (triesGet c.sequenceTries (c.SequenceStartJob jobId).Id ≤
    (c.SequenceStartJob jobId).SequenceRetry)

/-- The scan loop of IsDoneRunning (chain.go), over the remaining job map
entries, threading the complete flag; none models the panic on an invalid
job state. -/
def isDoneRunningFrom (c : Chain) : List (String × Job) → Bool → Option (Bool × Bool)
  | [], complete => some (true, complete)
  | e :: rest, complete =>
      if e.2.State == STATE_COMPLETE then isDoneRunningFrom c rest complete
      else if e.2.State == STATE_RUNNING then some (false, false)
      else if e.2.State == STATE_STOPPED then isDoneRunningFrom c rest false
      else if e.2.State == STATE_PENDING then
        if c.isRunnable e.2.Id then some (false, false)
        else isDoneRunningFrom c rest false
      else if e.2.State == STATE_FAIL || e.2.State == STATE_UNKNOWN then
        if c.canRetrySequence e.2.Id then some (false, false)
        else isDoneRunningFrom c rest false
      else none

/-- IsDoneRunning (chain.go): scan every job starting with complete = true. -/
def Chain.IsDoneRunning (c : Chain) : Option (Bool × Bool) :=
  isDoneRunningFrom c c.jobChain.Jobs true

/-- FailedJobs (chain.go): the number of jobs in state FAIL or UNKNOWN. -/
def Chain.FailedJobs (c : Chain) : Nat :=
  (c.jobChain.Jobs.filter
    (fun e => e.2.State == STATE_FAIL || e.2.State == STATE_UNKNOWN)).length

/-- IncrementJobTries (chain.go): a positive delta also grows totalJobTries
with the wrapping uint addition; the Go local cur = int(latestRunJobTries[id])
is the wrapping uint-to-int reinterpretation (inlined here), cur + delta is
the wrapping int addition, a negative result panics (none), and the store is
the wrapping int-to-uint conversion. -/
def Chain.IncrementJobTries (c : Chain) (jobId : String) (delta : Int) : Option Chain :=
  if goAddInt (goIntOfUint (triesGet c.latestRunJobTries jobId)) delta < 0 then none
  else some { c with
    totalJobTries :=
      if delta > 0 then
        mapSet c.totalJobTries jobId
          (goUintAdd (triesGet c.totalJobTries jobId) (goUintOfInt delta))
      else c.totalJobTries
    latestRunJobTries :=
      mapSet c.latestRunJobTries jobId
        (goUintOfInt (goAddInt (goIntOfUint (triesGet c.latestRunJobTries jobId)) delta)) }

/-- JobTries (chain.go): (latestRunJobTries[id], totalJobTries[id]). -/
def Chain.JobTries (c : Chain) (jobId : String) : Nat × Nat :=
  (triesGet c.latestRunJobTries jobId, triesGet c.totalJobTries jobId)

/-- IncrementSequenceTries (chain.go): adds the signed delta to the counter of
the job's sequence id. There is no negative check: the Go conversion
uint(cur + delta) wraps modulo 2^64. -/
def Chain.IncrementSequenceTries (c : Chain) (jobId : String) (delta : Int) : Chain :=
  let seqId := (jobsGet c.jobChain.Jobs jobId).SequenceId
  let cur : Int := (triesGet c.sequenceTries seqId : Int)
  { c with sequenceTries := mapSet c.sequenceTries seqId (goUintOfInt (cur + delta)) }

/-- SequenceTries (chain.go): the counter of the job's sequence id. -/
def Chain.SequenceTries (c : Chain) (jobId : String) : Nat :=
  triesGet c.sequenceTries (jobsGet c.jobChain.Jobs jobId).SequenceId

/-- IncrementFinishedJobs (chain.go): signed adjustment of FinishedJobs; the
Go local cur = int(FinishedJobs) is the wrapping uint-to-int reinterpretation
(inlined here), cur + delta the wrapping int addition, a negative result
panics (none), and the store wraps back to uint. -/
def Chain.IncrementFinishedJobs (c : Chain) (delta : Int) : Option Chain :=
  if goAddInt (goIntOfUint c.jobChain.FinishedJobs) delta < 0 then none
  else some { c with jobChain := { c.jobChain with
    FinishedJobs := goUintOfInt (goAddInt (goIntOfUint c.jobChain.FinishedJobs) delta) } }

/-- FinishedJobs (chain.go): the FinishedJobs counter of the JobChain. -/
def Chain.FinishedJobs (c : Chain) : Nat :=
  c.jobChain.FinishedJobs

/-- RequestId (chain.go). -/
def Chain.RequestId (c : Chain) : String :=
  c.jobChain.RequestId

/-- ToSuspended (chain.go): snapshot of RequestId, the JobChain, and the three
try maps. -/
def Chain.ToSuspended (c : Chain) : SuspendedJobChain :=
  { RequestId := c.RequestId
    JobChain := c.jobChain
    TotalJobTries := c.totalJobTries
    LatestRunJobTries := c.latestRunJobTries
    SequenceTries := c.sequenceTries }

/-- JobState (chain.go): the state of a given job. -/
def Chain.JobState (c : Chain) (jobId : String) : Nat :=
  (jobsGet c.jobChain.Jobs jobId).State

/-- SetState (chain.go): set the chain-level state. -/
def Chain.SetState (c : Chain) (state : Nat) : Chain :=
  { c with jobChain := { c.jobChain with State := state } }

/-- State (chain.go): the chain-level state. -/
def Chain.State (c : Chain) : Nat :=
  c.jobChain.State

/-- SetJobState (chain.go): fetch the job, overwrite its State field, store it
back into the Jobs map. -/
def Chain.SetJobState (c : Chain) (jobId : String) (state : Nat) : Chain :=
  let j := jobsGet c.jobChain.Jobs jobId
  { c with jobChain :=
      { c.jobChain with Jobs := mapSet c.jobChain.Jobs jobId { j with State := state } } }

/-- The valid filter names of the find command (find.go). -/
def validFilters : List String :=
  ["type", "states", "user", "since", "until", "limit", "offset"]

/-- strings.SplitN(s, "=", 2): one part when s has no separator, otherwise the
text before the first separator and everything after it. -/
def splitN2 (s : String) : List String :=
  match s.splitOn "=" with
  | [] => [s]
  | [x] => [x]
  | x :: rest => [x, String.intercalate "=" rest]

/-- The filter name an argument of the find command carries: the part before
the first equals sign. -/
def argFilterName (arg : String) : String :=
  (splitN2 arg).headD ""

/-- The argument-parsing loop of Find.Prepare (find.go): split each arg on the
first equals sign into filter and value, reject a malformed split, an unknown
filter name, and a filter already given, and record the pair. -/
def findPrepareArgs : List String → List (String × String) → Except String (List (String × String))
  | [], filters => .ok filters
  | arg :: rest, filters =>
      match splitN2 arg with
      | [filter, value] =>
          if ¬ validFilters.contains filter then
            .error ("Invalid filter " ++ filter)
          else if (List.lookup filter filters).isSome then
            .error ("Filter " ++ filter ++ " specified multiple times")
          else findPrepareArgs rest (filters ++ [(filter, value)])
      | _ => .error ("Invalid command arg: " ++ arg)

/-! Helper lemmas about the map embedding. -/

theorem lookup_mapSet_self {α : Type} (m : List (String × α)) (k : String) (v : α) :
    List.lookup k (mapSet m k v) = some v := by
  induction m with
  | nil => simp [mapSet, List.lookup]
  | cons e rest ih =>
      by_cases h : e.1 = k
      · simp [mapSet, h, List.lookup]
      · have hb : (k == e.1) = false := by simp [Ne.symm h]
        simpa [mapSet, h, List.lookup, hb] using ih

theorem lookup_mapSet_ne {α : Type} (m : List (String × α)) (k : String) (v : α)
    (k' : String) (h : k' ≠ k) :
    List.lookup k' (mapSet m k v) = List.lookup k' m := by
  induction m with
  | nil =>
      have hb : (k' == k) = false := by simp [h]
      simp [mapSet, List.lookup, hb]
  | cons e rest ih =>
      by_cases he : e.1 = k
      · subst he
        have hb : (k' == e.1) = false := by simp [h]
        simp [mapSet, List.lookup, hb]
      · by_cases hk : k' = e.1
        · simp [mapSet, he, List.lookup, hk]
        · have hb : (k' == e.1) = false := by simp [hk]
          simpa [mapSet, he, List.lookup, hb] using ih

theorem triesGet_mapSet_self (m : List (String × Nat)) (k : String) (v : Nat) :
    triesGet (mapSet m k v) k = v := by
  simp [triesGet, lookup_mapSet_self]

theorem triesGet_mapSet_ne (m : List (String × Nat)) (k : String) (v : Nat)
    (k' : String) (h : k' ≠ k) :
    triesGet (mapSet m k v) k' = triesGet m k' := by
  simp [triesGet, lookup_mapSet_ne m k v k' h]

theorem mem_previousJobs (c : Chain) (jobId : String) (j : Job) :
    j ∈ c.previousJobs jobId ↔
      ∃ e ∈ c.jobChain.AdjacencyList, containsStr e.2 jobId = true ∧
        List.lookup e.1 c.jobChain.Jobs = some j := by
  unfold Chain.previousJobs
  simp only [List.mem_filterMap]
  refine exists_congr fun e => and_congr_right fun _ => ?_
  by_cases h : containsStr e.2 jobId <;> simp [h]

theorem except_error_iff_not_ok {ε α : Type} (r : Except ε α) :
    (∃ e, r = .error e) ↔ ¬ ∃ a, r = .ok a := by
  cases r <;> simp

theorem materializeData_idem (j : Job) :
    materializeData (materializeData j) = materializeData j := by
  unfold materializeData
  cases h : j.Data <;> simp [h]

/-! Concrete chains used as witnesses and counterexamples. -/

/-- A job of the example DAGs: every job is its own or job1's sequence member. -/
def mkJob (id : String) (st : Nat) : Job :=
  { Id := id, State := st, SequenceId := "job1", SequenceRetry := 2, Retry := 0, Data := some [] }

/-- Scenario S2 of the spec: DAG job1 to job2 and job3, job2 to job4, with
job1 and job2 COMPLETE, job3 STOPPED, job4 PENDING. -/
def chainS2 : Chain :=
  NewChain
    { RequestId := "req1"
      Jobs := [("job1", mkJob "job1" STATE_COMPLETE), ("job2", mkJob "job2" STATE_COMPLETE),
               ("job3", mkJob "job3" STATE_STOPPED), ("job4", mkJob "job4" STATE_PENDING)]
      AdjacencyList := [("job1", ["job2", "job3"]), ("job2", ["job4"])]
      State := 0
      FinishedJobs := 2 }
    [] [] []

/-- Scenario S3 of the spec: the same DAG with job2 STOPPED and job3 COMPLETE. -/
def chainS3 : Chain :=
  NewChain
    { RequestId := "req1"
      Jobs := [("job1", mkJob "job1" STATE_COMPLETE), ("job2", mkJob "job2" STATE_STOPPED),
               ("job3", mkJob "job3" STATE_COMPLETE), ("job4", mkJob "job4" STATE_PENDING)]
      AdjacencyList := [("job1", ["job2", "job3"]), ("job2", ["job4"])]
      State := 0
      FinishedJobs := 2 }
    [] [] []

/-- C3: on the DAG with edges job1 to job2 and job3, and job2 to job4:
with job1 and job2 COMPLETE, job3 STOPPED, job4 PENDING, job4 is runnable and
IsDoneRunning returns (false, false); with job2 STOPPED and job3 COMPLETE
instead, job4 is not runnable and IsDoneRunning returns (true, false). A
stopped job blocks only its downstream jobs, not independent pending work. -/
theorem c3_stopped_blocks_only_downstream :
    chainS2.IsRunnable "job4" = true ∧ chainS2.IsDoneRunning = some (false, false) ∧
    chainS3.IsRunnable "job4" = false ∧ chainS3.IsDoneRunning = some (true, false) := by
  decide

/-- The uint-to-int reinterpretation is the identity below 2^63. -/
theorem goIntOfUint_of_lt (u : Nat) (h : u < 2 ^ 63) : goIntOfUint u = (u : Int) := by
  unfold goIntOfUint
  rw [Nat.mod_eq_of_lt (by omega), if_pos h]

/-- The wrapping int addition agrees with exact addition inside the 64-bit
range. -/
theorem goAddInt_eq (a b : Int) (h1 : -(2 ^ 63) ≤ a + b) (h2 : a + b < 2 ^ 63) :
    goAddInt a b = a + b := by
  unfold goAddInt
  omega

/-- C7 (amended): for a representable counter and delta, an IncrementJobTries
call whose signed delta would drive latestRunJobTries below zero is fatal, and
an IncrementFinishedJobs call whose signed delta would drive FinishedJobs
below zero is fatal. -/
theorem c7_negative_decrement_fatal (c : Chain) (jobId : String) (delta : Int)
    (hd1 : -(2 ^ 63) ≤ delta) (hd2 : delta < 2 ^ 63) :
    (triesGet c.latestRunJobTries jobId < 2 ^ 64 →
      (triesGet c.latestRunJobTries jobId : Int) + delta < 0 →
      c.IncrementJobTries jobId delta = none) ∧
    (c.jobChain.FinishedJobs < 2 ^ 64 →
      (c.jobChain.FinishedJobs : Int) + delta < 0 →
      c.IncrementFinishedJobs delta = none) := by
  constructor
  · intro hb hneg
    have hl : triesGet c.latestRunJobTries jobId < 2 ^ 63 := by omega
    have hcond : goAddInt (goIntOfUint (triesGet c.latestRunJobTries jobId)) delta < 0 := by
      rw [goIntOfUint_of_lt _ hl, goAddInt_eq _ _ (by omega) (by omega)]
      exact hneg
    unfold Chain.IncrementJobTries
    rw [if_pos hcond]
  · intro hb hneg
    have hl : c.jobChain.FinishedJobs < 2 ^ 63 := by omega
    have hcond : goAddInt (goIntOfUint c.jobChain.FinishedJobs) delta < 0 := by
      rw [goIntOfUint_of_lt _ hl, goAddInt_eq _ _ (by omega) (by omega)]
      exact hneg
    unfold Chain.IncrementFinishedJobs
    rw [if_pos hcond]

/-- Witness for the amended C7 at a concrete chain and delta. -/
theorem c7_witness :
    (-((2 : Int) ^ 63) ≤ -3 ∧ (-3 : Int) < 2 ^ 63 ∧
      triesGet chainS2.latestRunJobTries "job1" < 2 ^ 64 ∧
      (triesGet chainS2.latestRunJobTries "job1" : Int) + (-3) < 0 ∧
      chainS2.IncrementJobTries "job1" (-3) = none) ∧
    (chainS2.jobChain.FinishedJobs < 2 ^ 64 ∧
      (chainS2.jobChain.FinishedJobs : Int) + (-3) < 0 ∧
      chainS2.IncrementFinishedJobs (-3) = none) :=
  ⟨⟨by decide, by decide, by decide, by decide,
    (c7_negative_decrement_fatal chainS2 "job1" (-3) (by decide) (by decide)).1
      (by decide) (by decide)⟩,
   ⟨by decide, by decide,
    (c7_negative_decrement_fatal chainS2 "job1" (-3) (by decide) (by decide)).2
      (by decide) (by decide)⟩⟩

/-- C7 counterexample: a sequence-try decrement that drives the counter below
zero is not fatal; IncrementSequenceTries is total and the unchecked Go
conversion wraps the counter to 2^64 - 1. -/
theorem c7_counterexample_sequenceTries_wraps :
    chainS2.SequenceTries "job1" = 0 ∧
    (chainS2.IncrementSequenceTries "job1" (-1)).SequenceTries "job1" =
      18446744073709551615 := by
  decide


/-- C10: for a job id present in Jobs, SetJobState(id, s) sets exactly that
job's State field and leaves everything else unchanged: the job's other
fields, every other job, the AdjacencyList, RequestId, FinishedJobs, the
chain-level State, and the three try-counter maps. -/
theorem c10_setJobState_frame (c : Chain) (jobId : String) (j : Job) (s : Nat)
    (h : List.lookup jobId c.jobChain.Jobs = some j) :
    List.lookup jobId (c.SetJobState jobId s).jobChain.Jobs = some { j with State := s } ∧
    (∀ k, k ≠ jobId →
      List.lookup k (c.SetJobState jobId s).jobChain.Jobs = List.lookup k c.jobChain.Jobs) ∧
    (c.SetJobState jobId s).jobChain.AdjacencyList = c.jobChain.AdjacencyList ∧
    (c.SetJobState jobId s).jobChain.RequestId = c.jobChain.RequestId ∧
    (c.SetJobState jobId s).jobChain.FinishedJobs = c.jobChain.FinishedJobs ∧
    (c.SetJobState jobId s).jobChain.State = c.jobChain.State ∧
    (c.SetJobState jobId s).sequenceTries = c.sequenceTries ∧
    (c.SetJobState jobId s).totalJobTries = c.totalJobTries ∧
    (c.SetJobState jobId s).latestRunJobTries = c.latestRunJobTries := by
  have hj : jobsGet c.jobChain.Jobs jobId = j := by simp [jobsGet, h]
  refine ⟨?_, ?_, rfl, rfl, rfl, rfl, rfl, rfl, rfl⟩
  · simp [Chain.SetJobState, hj, lookup_mapSet_self]
  · intro k hk
    simp [Chain.SetJobState, hj, lookup_mapSet_ne _ _ _ _ hk]

/-- Witness for C10 at a concrete chain. -/
theorem c10_witness :
    List.lookup "job1" chainS2.jobChain.Jobs = some (mkJob "job1" STATE_COMPLETE) ∧
    List.lookup "job1" (chainS2.SetJobState "job1" STATE_RUNNING).jobChain.Jobs =
      some { mkJob "job1" STATE_COMPLETE with State := STATE_RUNNING } :=
  ⟨by decide,
    (c10_setJobState_frame chainS2 "job1" (mkJob "job1" STATE_COMPLETE) STATE_RUNNING
      (by decide)).1⟩

/-- C5: for a job id whose SequenceId names an existing job s,
CanRetrySequence(id) is true iff sequenceTries of s.Id is at most
s.SequenceRetry; with SequenceRetry = 2 the predicate stays true for
sequence-try counts 0, 1 and 2, admitting three total attempts. -/
theorem c5_canRetrySequence (c : Chain) (jobId : String) (s : Job)
    (h : List.lookup (jobsGet c.jobChain.Jobs jobId).SequenceId c.jobChain.Jobs = some s) :
    (c.CanRetrySequence jobId = true ↔
      triesGet c.sequenceTries s.Id ≤ s.SequenceRetry) ∧
    (s.SequenceRetry = 2 → ∀ t : Nat, t ≤ 2 →
      Chain.CanRetrySequence { c with sequenceTries := mapSet c.sequenceTries s.Id t } jobId
        = true) := by
  have hs : c.SequenceStartJob jobId = s := by
    unfold Chain.SequenceStartJob jobsGet
    unfold jobsGet at h
    rw [h]
    rfl
  constructor
  · simp [Chain.CanRetrySequence, hs]
  · intro h2 t ht
    have hs' :
        Chain.SequenceStartJob { c with sequenceTries := mapSet c.sequenceTries s.Id t } jobId
          = s := hs
    simp [Chain.CanRetrySequence, hs', triesGet_mapSet_self, h2]
    omega

/-- Witness for C5 at a concrete chain. -/
theorem c5_witness :
    List.lookup (jobsGet chainS2.jobChain.Jobs "job2").SequenceId chainS2.jobChain.Jobs =
      some (mkJob "job1" STATE_COMPLETE) ∧
    (chainS2.CanRetrySequence "job2" = true ↔
      triesGet chainS2.sequenceTries (mkJob "job1" STATE_COMPLETE).Id ≤
        (mkJob "job1" STATE_COMPLETE).SequenceRetry) :=
  ⟨by decide,
    (c5_canRetrySequence chainS2 "job2" (mkJob "job1" STATE_COMPLETE) (by decide)).1⟩

/-- A chain whose latestRunJobTries counter for job1 is 2^63, the smallest
uint whose int reinterpretation is negative. -/
def chainBigTries : Chain :=
  NewChain
    { RequestId := "req1"
      Jobs := [("job1", mkJob "job1" STATE_PENDING)]
      AdjacencyList := []
      State := 0
      FinishedJobs := 0 }
    [] [] [("job1", 9223372036854775808)]

/-- Counterexample to C6 as stated: with latestRunJobTries at 2^63 and the
positive delta 1, the Go conversion int(2^63) reads -2^63, the checked sum is
negative, and IncrementJobTries panics (none) instead of growing both
counters by 1. -/
theorem c6_counterexample_large_counter_panics :
    0 < 1 ∧ triesGet chainBigTries.latestRunJobTries "job1" = 2 ^ 63 ∧
    chainBigTries.IncrementJobTries "job1" 1 = none := by
  decide

/-- C6 (amended): when the grown latestRunJobTries stays below 2^63 and the
grown totalJobTries below 2^64, IncrementJobTries with a positive delta grows
both counters by exactly that delta; when latestRunJobTries is below 2^63, a
non-positive delta whose magnitude is at most latestRunJobTries leaves
totalJobTries unchanged and lowers latestRunJobTries by exactly the
magnitude. -/
theorem c6_incrementJobTries (c : Chain) (jobId : String) (k : Nat) :
    (0 < k → triesGet c.latestRunJobTries jobId + k < 2 ^ 63 →
      triesGet c.totalJobTries jobId + k < 2 ^ 64 →
      ∃ c', c.IncrementJobTries jobId (k : Int) = some c' ∧
        triesGet c'.totalJobTries jobId = triesGet c.totalJobTries jobId + k ∧
        triesGet c'.latestRunJobTries jobId = triesGet c.latestRunJobTries jobId + k) ∧
    (k ≤ triesGet c.latestRunJobTries jobId →
      triesGet c.latestRunJobTries jobId < 2 ^ 63 →
      ∃ c', c.IncrementJobTries jobId (-(k : Int)) = some c' ∧
        triesGet c'.totalJobTries jobId = triesGet c.totalJobTries jobId ∧
        triesGet c'.latestRunJobTries jobId = triesGet c.latestRunJobTries jobId - k) := by
  constructor
  · intro hk hl ht
    have hlat : triesGet c.latestRunJobTries jobId < 2 ^ 63 := by omega
    have hcur : goIntOfUint (triesGet c.latestRunJobTries jobId)
        = (triesGet c.latestRunJobTries jobId : Int) := goIntOfUint_of_lt _ hlat
    have hadd : goAddInt (triesGet c.latestRunJobTries jobId : Int) (k : Int)
        = (triesGet c.latestRunJobTries jobId : Int) + (k : Int) :=
      goAddInt_eq _ _ (by omega) (by omega)
    have hcond : ¬ goAddInt (goIntOfUint (triesGet c.latestRunJobTries jobId)) (k : Int) < 0 := by
      rw [hcur, hadd]
      omega
    have hp : ((k : Int) > 0) := by exact_mod_cast hk
    unfold Chain.IncrementJobTries
    rw [if_neg hcond, if_pos hp]
    refine ⟨_, rfl, ?_, ?_⟩
    · rw [triesGet_mapSet_self]
      unfold goUintAdd goUintOfInt
      omega
    · rw [triesGet_mapSet_self, hcur, hadd]
      unfold goUintOfInt
      omega
  · intro hk hl
    have hcur : goIntOfUint (triesGet c.latestRunJobTries jobId)
        = (triesGet c.latestRunJobTries jobId : Int) := goIntOfUint_of_lt _ hl
    have hadd : goAddInt (triesGet c.latestRunJobTries jobId : Int) (-(k : Int))
        = (triesGet c.latestRunJobTries jobId : Int) + (-(k : Int)) :=
      goAddInt_eq _ _ (by omega) (by omega)
    have hcond :
        ¬ goAddInt (goIntOfUint (triesGet c.latestRunJobTries jobId)) (-(k : Int)) < 0 := by
      rw [hcur, hadd]
      omega
    have hp : ¬ ((-(k : Int)) > 0) := by omega
    unfold Chain.IncrementJobTries
    rw [if_neg hcond, if_neg hp]
    refine ⟨_, rfl, rfl, ?_⟩
    rw [triesGet_mapSet_self, hcur, hadd]
    unfold goUintOfInt
    omega

/-- Witness for the amended C6 at a concrete chain. -/
theorem c6_witness :
    (0 < 2 ∧ triesGet chainS2.latestRunJobTries "job1" + 2 < 2 ^ 63 ∧
      triesGet chainS2.totalJobTries "job1" + 2 < 2 ^ 64 ∧
      ∃ c', chainS2.IncrementJobTries "job1" ((2 : Nat) : Int) = some c' ∧
        triesGet c'.totalJobTries "job1" = triesGet chainS2.totalJobTries "job1" + 2 ∧
        triesGet c'.latestRunJobTries "job1" = triesGet chainS2.latestRunJobTries "job1" + 2) ∧
    (0 ≤ triesGet chainS2.latestRunJobTries "job1" ∧
      triesGet chainS2.latestRunJobTries "job1" < 2 ^ 63 ∧
      ∃ c', chainS2.IncrementJobTries "job1" (-((0 : Nat) : Int)) = some c' ∧
        triesGet c'.totalJobTries "job1" = triesGet chainS2.totalJobTries "job1" ∧
        triesGet c'.latestRunJobTries "job1" = triesGet chainS2.latestRunJobTries "job1" - 0) :=
  ⟨⟨by decide, by decide, by decide,
    (c6_incrementJobTries chainS2 "job1" 2).1 (by decide) (by decide) (by decide)⟩,
   ⟨by decide, by decide,
    (c6_incrementJobTries chainS2 "job1" 0).2 (by decide) (by decide)⟩⟩


/-- The scan loop returns (true, true) exactly when it starts with the
complete flag still true and every remaining job is COMPLETE. -/
theorem isDoneRunningFrom_true_true (c : Chain) (l : List (String × Job)) :
    ∀ acc : Bool, (∀ e ∈ l, validState e.2.State) →
      (isDoneRunningFrom c l acc = some (true, true) ↔
        (acc = true ∧ ∀ e ∈ l, e.2.State = STATE_COMPLETE)) := by
  induction l with
  | nil => intro acc hv; simp [isDoneRunningFrom]
  | cons e rest ih =>
      intro acc hv
      have hvr : ∀ x ∈ rest, validState x.2.State := fun x hx => hv x (List.mem_cons_of_mem e hx)
      have hve : validState e.2.State := hv e (List.mem_cons_self e rest)
      rcases hve with h | h | h | h | h | h
      · by_cases hr : c.isRunnable e.2.Id <;>
          simp [isDoneRunningFrom, h, hr, STATE_PENDING, STATE_RUNNING, STATE_COMPLETE,
            STATE_FAIL, STATE_STOPPED, STATE_UNKNOWN, ih false hvr, List.forall_mem_cons]
      · simp [isDoneRunningFrom, h, STATE_PENDING, STATE_RUNNING, STATE_COMPLETE,
          STATE_FAIL, STATE_STOPPED, STATE_UNKNOWN, List.forall_mem_cons]
      · simp [isDoneRunningFrom, h, STATE_PENDING, STATE_RUNNING, STATE_COMPLETE,
          STATE_FAIL, STATE_STOPPED, STATE_UNKNOWN, ih acc hvr, List.forall_mem_cons]
      · by_cases hcr : c.canRetrySequence e.2.Id <;>
          simp [isDoneRunningFrom, h, hcr, STATE_PENDING, STATE_RUNNING, STATE_COMPLETE,
            STATE_FAIL, STATE_STOPPED, STATE_UNKNOWN, ih false hvr, List.forall_mem_cons]
      · simp [isDoneRunningFrom, h, STATE_PENDING, STATE_RUNNING, STATE_COMPLETE,
          STATE_FAIL, STATE_STOPPED, STATE_UNKNOWN, ih false hvr, List.forall_mem_cons]
      · by_cases hcr : c.canRetrySequence e.2.Id <;>
          simp [isDoneRunningFrom, h, hcr, STATE_PENDING, STATE_RUNNING, STATE_COMPLETE,
            STATE_FAIL, STATE_STOPPED, STATE_UNKNOWN, ih false hvr, List.forall_mem_cons]

/-- The scan loop short-circuits to (false, false) whenever some remaining
job is RUNNING, or PENDING and runnable. -/
theorem isDoneRunningFrom_false_false (c : Chain) (l : List (String × Job)) :
    ∀ acc : Bool, (∀ e ∈ l, validState e.2.State) →
      ((∃ e ∈ l, e.2.State = STATE_RUNNING) ∨
       (∃ e ∈ l, e.2.State = STATE_PENDING ∧ c.isRunnable e.2.Id = true)) →
      isDoneRunningFrom c l acc = some (false, false) := by
  induction l with
  | nil =>
      intro acc hv hw
      rcases hw with ⟨x, hx, _⟩ | ⟨x, hx, _⟩ <;> simp at hx
  | cons e rest ih =>
      intro acc hv hw
      have hvr : ∀ x ∈ rest, validState x.2.State := fun x hx => hv x (List.mem_cons_of_mem e hx)
      have hve : validState e.2.State := hv e (List.mem_cons_self e rest)
      rcases hve with h | h | h | h | h | h
      · by_cases hr : c.isRunnable e.2.Id
        · simp [isDoneRunningFrom, h, hr, STATE_PENDING, STATE_RUNNING, STATE_COMPLETE,
            STATE_FAIL, STATE_STOPPED, STATE_UNKNOWN]
        · have hw' : (∃ x ∈ rest, x.2.State = STATE_RUNNING) ∨
              (∃ x ∈ rest, x.2.State = STATE_PENDING ∧ c.isRunnable x.2.Id = true) := by
            rcases hw with ⟨x, hx, hxs⟩ | ⟨x, hx, hxs⟩
            · rcases List.mem_cons.mp hx with rfl | hx'
              · rw [h] at hxs
                simp [STATE_PENDING, STATE_RUNNING] at hxs
              · exact Or.inl ⟨x, hx', hxs⟩
            · rcases List.mem_cons.mp hx with rfl | hx'
              · exact absurd hxs.2 hr
              · exact Or.inr ⟨x, hx', hxs⟩
          simpa [isDoneRunningFrom, h, hr, STATE_PENDING, STATE_RUNNING, STATE_COMPLETE,
            STATE_FAIL, STATE_STOPPED, STATE_UNKNOWN] using ih false hvr hw'
      · simp [isDoneRunningFrom, h, STATE_PENDING, STATE_RUNNING, STATE_COMPLETE,
          STATE_FAIL, STATE_STOPPED, STATE_UNKNOWN]
      · have hw' : (∃ x ∈ rest, x.2.State = STATE_RUNNING) ∨
            (∃ x ∈ rest, x.2.State = STATE_PENDING ∧ c.isRunnable x.2.Id = true) := by
          rcases hw with ⟨x, hx, hxs⟩ | ⟨x, hx, hxs⟩
          · rcases List.mem_cons.mp hx with rfl | hx'
            · rw [h] at hxs
              simp [STATE_COMPLETE, STATE_RUNNING] at hxs
            · exact Or.inl ⟨x, hx', hxs⟩
          · rcases List.mem_cons.mp hx with rfl | hx'
            · rw [h] at hxs
              simp [STATE_COMPLETE, STATE_PENDING] at hxs
            · exact Or.inr ⟨x, hx', hxs⟩
        simpa [isDoneRunningFrom, h, STATE_PENDING, STATE_RUNNING, STATE_COMPLETE,
          STATE_FAIL, STATE_STOPPED, STATE_UNKNOWN] using ih acc hvr hw'
      · by_cases hcr : c.canRetrySequence e.2.Id
        · simp [isDoneRunningFrom, h, hcr, STATE_PENDING, STATE_RUNNING, STATE_COMPLETE,
            STATE_FAIL, STATE_STOPPED, STATE_UNKNOWN]
        · have hw' : (∃ x ∈ rest, x.2.State = STATE_RUNNING) ∨
              (∃ x ∈ rest, x.2.State = STATE_PENDING ∧ c.isRunnable x.2.Id = true) := by
            rcases hw with ⟨x, hx, hxs⟩ | ⟨x, hx, hxs⟩
            · rcases List.mem_cons.mp hx with rfl | hx'
              · rw [h] at hxs
                simp [STATE_FAIL, STATE_RUNNING] at hxs
              · exact Or.inl ⟨x, hx', hxs⟩
            · rcases List.mem_cons.mp hx with rfl | hx'
              · rw [h] at hxs
                simp [STATE_FAIL, STATE_PENDING] at hxs
              · exact Or.inr ⟨x, hx', hxs⟩
          simpa [isDoneRunningFrom, h, hcr, STATE_PENDING, STATE_RUNNING, STATE_COMPLETE,
            STATE_FAIL, STATE_STOPPED, STATE_UNKNOWN] using ih false hvr hw'
      · have hw' : (∃ x ∈ rest, x.2.State = STATE_RUNNING) ∨
            (∃ x ∈ rest, x.2.State = STATE_PENDING ∧ c.isRunnable x.2.Id = true) := by
          rcases hw with ⟨x, hx, hxs⟩ | ⟨x, hx, hxs⟩
          · rcases List.mem_cons.mp hx with rfl | hx'
            · rw [h] at hxs
              simp [STATE_STOPPED, STATE_RUNNING] at hxs
            · exact Or.inl ⟨x, hx', hxs⟩
          · rcases List.mem_cons.mp hx with rfl | hx'
            · rw [h] at hxs
              simp [STATE_STOPPED, STATE_PENDING] at hxs
            · exact Or.inr ⟨x, hx', hxs⟩
        simpa [isDoneRunningFrom, h, STATE_PENDING, STATE_RUNNING, STATE_COMPLETE,
          STATE_FAIL, STATE_STOPPED, STATE_UNKNOWN] using ih false hvr hw'
      · by_cases hcr : c.canRetrySequence e.2.Id
        · simp [isDoneRunningFrom, h, hcr, STATE_PENDING, STATE_RUNNING, STATE_COMPLETE,
            STATE_FAIL, STATE_STOPPED, STATE_UNKNOWN]
        · have hw' : (∃ x ∈ rest, x.2.State = STATE_RUNNING) ∨
              (∃ x ∈ rest, x.2.State = STATE_PENDING ∧ c.isRunnable x.2.Id = true) := by
            rcases hw with ⟨x, hx, hxs⟩ | ⟨x, hx, hxs⟩
            · rcases List.mem_cons.mp hx with rfl | hx'
              · rw [h] at hxs
                simp [STATE_UNKNOWN, STATE_RUNNING] at hxs
              · exact Or.inl ⟨x, hx', hxs⟩
            · rcases List.mem_cons.mp hx with rfl | hx'
              · rw [h] at hxs
                simp [STATE_UNKNOWN, STATE_PENDING] at hxs
              · exact Or.inr ⟨x, hx', hxs⟩
          simpa [isDoneRunningFrom, h, hcr, STATE_PENDING, STATE_RUNNING, STATE_COMPLETE,
            STATE_FAIL, STATE_STOPPED, STATE_UNKNOWN] using ih false hvr hw'


/-- C1: for every chain whose job states all lie in the six valid states,
IsDoneRunning returns (true, true) if and only if every job in the chain is
COMPLETE. -/
theorem c1_isDoneRunning_true_true (c : Chain)
    (hv : ∀ e ∈ c.jobChain.Jobs, validState e.2.State) :
    c.IsDoneRunning = some (true, true) ↔
      ∀ e ∈ c.jobChain.Jobs, e.2.State = STATE_COMPLETE := by
  simpa [Chain.IsDoneRunning] using isDoneRunningFrom_true_true c c.jobChain.Jobs true hv

/-- Scenario S6 of the spec: every job of the DAG is COMPLETE. -/
def chainS6 : Chain :=
  NewChain
    { RequestId := "req1"
      Jobs := [("job1", mkJob "job1" STATE_COMPLETE), ("job2", mkJob "job2" STATE_COMPLETE),
               ("job3", mkJob "job3" STATE_COMPLETE), ("job4", mkJob "job4" STATE_COMPLETE)]
      AdjacencyList := [("job1", ["job2", "job3"]), ("job2", ["job4"])]
      State := 0
      FinishedJobs := 4 }
    [] [] []

/-- Witness for C1 at a concrete all-complete chain. -/
theorem c1_witness :
    (∀ e ∈ chainS6.jobChain.Jobs, validState e.2.State) ∧
    (chainS6.IsDoneRunning = some (true, true) ↔
      ∀ e ∈ chainS6.jobChain.Jobs, e.2.State = STATE_COMPLETE) :=
  ⟨by decide, c1_isDoneRunning_true_true chainS6 (by decide)⟩

/-- C2 (amended): for every chain whose job states all lie in the six valid
states, if some job is RUNNING, or some job is PENDING and runnable, then
IsDoneRunning returns (false, false). -/
theorem c2_running_or_runnable_not_done (c : Chain)
    (hv : ∀ e ∈ c.jobChain.Jobs, validState e.2.State)
    (hw : (∃ e ∈ c.jobChain.Jobs, e.2.State = STATE_RUNNING) ∨
      (∃ e ∈ c.jobChain.Jobs, e.2.State = STATE_PENDING ∧ c.IsRunnable e.2.Id = true)) :
    c.IsDoneRunning = some (false, false) := by
  have hw' : (∃ e ∈ c.jobChain.Jobs, e.2.State = STATE_RUNNING) ∨
      (∃ e ∈ c.jobChain.Jobs, e.2.State = STATE_PENDING ∧ c.isRunnable e.2.Id = true) := hw
  exact isDoneRunningFrom_false_false c c.jobChain.Jobs true hv hw'

/-- Scenario S1 of the spec: one single running job. -/
def chainS1 : Chain :=
  NewChain
    { RequestId := "req1"
      Jobs := [("job1", mkJob "job1" STATE_RUNNING)]
      AdjacencyList := []
      State := 0
      FinishedJobs := 0 }
    [] [] []

/-- Witness for the amended C2 at a concrete single-running-job chain. -/
theorem c2_witness :
    (∀ e ∈ chainS1.jobChain.Jobs, validState e.2.State) ∧
    chainS1.IsDoneRunning = some (false, false) :=
  ⟨by decide, c2_running_or_runnable_not_done chainS1 (by decide) (by decide)⟩

/-- A chain holding a job with the out-of-range state byte 99 ahead of a
running job in the scan order. -/
def chainInvalidState : Chain :=
  NewChain
    { RequestId := "req1"
      Jobs := [("job1", mkJob "job1" 99), ("job2", mkJob "job2" STATE_RUNNING)]
      AdjacencyList := []
      State := 0
      FinishedJobs := 0 }
    [] [] []

/-- Counterexample to C2 as stated: this chain has a RUNNING job, yet
IsDoneRunning does not return (false, false); the scan reaches the job with
the invalid state byte 99 first and panics (none). -/
theorem c2_counterexample_invalid_state :
    (∃ e ∈ chainInvalidState.jobChain.Jobs, e.2.State = STATE_RUNNING) ∧
    chainInvalidState.IsDoneRunning ≠ some (false, false) ∧
    chainInvalidState.IsDoneRunning = none := by
  decide


/-- C4: for a job id present in Jobs, IsRunnable(id) is true iff the job's
state is PENDING and every job with an adjacency-list edge into id is
COMPLETE; in particular IsRunnable is false whenever the job's state is
STOPPED, FAIL, UNKNOWN, RUNNING or COMPLETE. -/
theorem c4_isRunnable_iff (c : Chain) (jobId : String)
    (h : (List.lookup jobId c.jobChain.Jobs).isSome = true) :
    (c.IsRunnable jobId = true ↔
      ((jobsGet c.jobChain.Jobs jobId).State = STATE_PENDING ∧
        ∀ e ∈ c.jobChain.AdjacencyList, containsStr e.2 jobId = true →
          ∀ p, List.lookup e.1 c.jobChain.Jobs = some p → p.State = STATE_COMPLETE)) ∧
    ((jobsGet c.jobChain.Jobs jobId).State = STATE_STOPPED ∨
      (jobsGet c.jobChain.Jobs jobId).State = STATE_FAIL ∨
      (jobsGet c.jobChain.Jobs jobId).State = STATE_UNKNOWN ∨
      (jobsGet c.jobChain.Jobs jobId).State = STATE_RUNNING ∨
      (jobsGet c.jobChain.Jobs jobId).State = STATE_COMPLETE →
        c.IsRunnable jobId = false) := by
  constructor
  · unfold Chain.IsRunnable Chain.isRunnable
    by_cases hp : (jobsGet c.jobChain.Jobs jobId).State = STATE_PENDING
    · simp only [hp, ne_eq, not_true_eq_false, if_false, ite_false, List.all_eq_true,
        beq_iff_eq, true_and, not_false_eq_true, if_true, ite_true]
      constructor
      · intro hall e he hc p hl
        exact hall p ((mem_previousJobs c jobId p).mpr ⟨e, he, hc, hl⟩)
      · intro hall p hmem
        rcases (mem_previousJobs c jobId p).mp hmem with ⟨e, he, hc, hl⟩
        exact hall e he hc p hl
    · simp [hp]
  · intro hs
    have hp : (jobsGet c.jobChain.Jobs jobId).State ≠ STATE_PENDING := by
      rcases hs with h1 | h1 | h1 | h1 | h1 <;> rw [h1] <;>
        simp [STATE_PENDING, STATE_STOPPED, STATE_FAIL, STATE_UNKNOWN, STATE_RUNNING,
          STATE_COMPLETE]
    unfold Chain.IsRunnable Chain.isRunnable
    simp [hp]

/-- Witness for C4 at a concrete chain. -/
theorem c4_witness :
    (List.lookup "job4" chainS2.jobChain.Jobs).isSome = true ∧
    (chainS2.IsRunnable "job4" = true ↔
      ((jobsGet chainS2.jobChain.Jobs "job4").State = STATE_PENDING ∧
        ∀ e ∈ chainS2.jobChain.AdjacencyList, containsStr e.2 "job4" = true →
          ∀ p, List.lookup e.1 chainS2.jobChain.Jobs = some p →
            p.State = STATE_COMPLETE)) :=
  ⟨by decide, (c4_isRunnable_iff chainS2 "job4" (by decide)).1⟩

/-- Mapping materializeData over the entries of a Jobs map is idempotent. -/
theorem mapMaterialize_idem (l : List (String × Job)) :
    (l.map (fun e => (e.1, materializeData e.2))).map (fun e => (e.1, materializeData e.2)) =
      l.map (fun e => (e.1, materializeData e.2)) := by
  induction l with
  | nil => simp
  | cons e rest ih => simp [ih, materializeData_idem]

/-- Resuming from a suspended snapshot: rebuild the chain by handing the
snapshot's JobChain and try maps back to the constructor. -/
def roundTrip (c : Chain) : Chain :=
  NewChain c.ToSuspended.JobChain c.ToSuspended.SequenceTries c.ToSuspended.TotalJobTries
    c.ToSuspended.LatestRunJobTries

/-- Resuming a constructed chain from its suspended snapshot rebuilds the
chain itself. -/
theorem roundTrip_newChain (jc : JobChain) (st tt lt : List (String × Nat)) :
    roundTrip (NewChain jc st tt lt) = NewChain jc st tt lt := by
  simp only [roundTrip, Chain.ToSuspended, NewChain]
  rw [mapMaterialize_idem]

/-- C8: a chain built by the constructor and then rebuilt from its suspended
snapshot agrees with the original on every public accessor. -/
theorem c8_suspend_resume_round_trip (jc : JobChain) (st tt lt : List (String × Nat)) :
    (roundTrip (NewChain jc st tt lt)).RequestId = (NewChain jc st tt lt).RequestId ∧
    (roundTrip (NewChain jc st tt lt)).State = (NewChain jc st tt lt).State ∧
    (roundTrip (NewChain jc st tt lt)).FinishedJobs = (NewChain jc st tt lt).FinishedJobs ∧
    (roundTrip (NewChain jc st tt lt)).FailedJobs = (NewChain jc st tt lt).FailedJobs ∧
    (∀ id, (roundTrip (NewChain jc st tt lt)).JobState id = (NewChain jc st tt lt).JobState id) ∧
    (∀ id, (roundTrip (NewChain jc st tt lt)).JobTries id = (NewChain jc st tt lt).JobTries id) ∧
    (∀ id, (roundTrip (NewChain jc st tt lt)).SequenceTries id
      = (NewChain jc st tt lt).SequenceTries id) ∧
    (∀ id, (roundTrip (NewChain jc st tt lt)).NextJobs id = (NewChain jc st tt lt).NextJobs id) ∧
    (∀ id, (roundTrip (NewChain jc st tt lt)).IsRunnable id
      = (NewChain jc st tt lt).IsRunnable id) ∧
    (roundTrip (NewChain jc st tt lt)).RunnableJobs = (NewChain jc st tt lt).RunnableJobs ∧
    (roundTrip (NewChain jc st tt lt)).IsDoneRunning = (NewChain jc st tt lt).IsDoneRunning ∧
    (∀ id, (roundTrip (NewChain jc st tt lt)).CanRetrySequence id
      = (NewChain jc st tt lt).CanRetrySequence id) ∧
    (∀ id, (roundTrip (NewChain jc st tt lt)).SequenceStartJob id
      = (NewChain jc st tt lt).SequenceStartJob id) ∧
    (∀ id, (roundTrip (NewChain jc st tt lt)).IsSequenceStartJob id
      = (NewChain jc st tt lt).IsSequenceStartJob id) := by
  rw [roundTrip_newChain]
  exact ⟨rfl, rfl, rfl, rfl, fun _ => rfl, fun _ => rfl, fun _ => rfl, fun _ => rfl,
    fun _ => rfl, rfl, rfl, fun _ => rfl, fun _ => rfl, fun _ => rfl⟩


/-- Looking up a key after appending one binding fails exactly when it failed
before and the key differs from the appended one. -/
theorem lookup_append_single_eq_none {α : Type} (l : List (String × α)) (f : String) (v : α)
    (k : String) :
    List.lookup k (l ++ [(f, v)]) = none ↔ List.lookup k l = none ∧ k ≠ f := by
  induction l with
  | nil =>
      by_cases h : k = f
      · simp [List.lookup, h]
      · have hb : (k == f) = false := by simp [h]
        simp [List.lookup, hb, h]
  | cons e rest ih =>
      by_cases h : k = e.1
      · have hb : (k == e.1) = true := by simp [h]
        simp [List.lookup, hb]
      · have hb : (k == e.1) = false := by simp [h]
        simpa [List.lookup, hb] using ih

/-- The find argument-parsing loop accepts exactly when every argument splits
in two, every filter name is valid and fresh with respect to both the earlier
arguments and the accumulated filters. -/
theorem findPrepareArgs_ok_iff (args : List String) :
    ∀ filters : List (String × String),
      (∃ out, findPrepareArgs args filters = .ok out) ↔
        ((∀ arg ∈ args, (splitN2 arg).length = 2) ∧
         (∀ arg ∈ args, validFilters.contains (argFilterName arg) = true) ∧
         (args.map argFilterName).Nodup ∧
         (∀ arg ∈ args, List.lookup (argFilterName arg) filters = none)) := by
  induction args with
  | nil => intro filters; simp [findPrepareArgs]
  | cons arg rest ih =>
      intro filters
      rcases hsp : splitN2 arg with _ | ⟨f, tl⟩
      · simp [findPrepareArgs, hsp, argFilterName, List.forall_mem_cons]
      · rcases tl with _ | ⟨v, tl2⟩
        · simp [findPrepareArgs, hsp, argFilterName, List.forall_mem_cons]
        · rcases tl2 with _ | ⟨w, tl3⟩
          · have hname : argFilterName arg = f := by simp [argFilterName, hsp]
            by_cases hvf : validFilters.contains f = true
            · by_cases hdup : (List.lookup f filters).isSome = true
              · have hne : List.lookup f filters ≠ none := by
                  intro hn
                  rw [hn] at hdup
                  simp at hdup
                simp only [findPrepareArgs, hsp]
                rw [if_neg (not_not_intro hvf), if_pos hdup]
                constructor
                · rintro ⟨out, hout⟩
                  simp at hout
                · rintro ⟨-, -, -, h4⟩
                  have h4a := h4 arg (List.mem_cons_self arg rest)
                  rw [hname] at h4a
                  exact absurd h4a hne
              · have hnd : List.lookup f filters = none := by
                  cases hh : List.lookup f filters
                  · rfl
                  · rw [hh] at hdup
                    simp at hdup
                have hstep : findPrepareArgs (arg :: rest) filters =
                    findPrepareArgs rest (filters ++ [(f, v)]) := by
                  simp only [findPrepareArgs, hsp]
                  rw [if_neg (not_not_intro hvf), if_neg hdup]
                rw [hstep, ih (filters ++ [(f, v)])]
                constructor
                · rintro ⟨h1, h2, h3, h4⟩
                  have hfnotin : f ∉ rest.map argFilterName := by
                    intro hmem
                    rcases List.mem_map.mp hmem with ⟨x, hx, hxf⟩
                    have h4x := h4 x hx
                    rw [hxf] at h4x
                    exact ((lookup_append_single_eq_none filters f v f).mp h4x).2 rfl
                  refine ⟨List.forall_mem_cons.mpr ⟨by simp [hsp], h1⟩,
                    List.forall_mem_cons.mpr ⟨by rw [hname]; exact hvf, h2⟩, ?_, ?_⟩
                  · rw [List.map_cons, hname]
                    exact List.nodup_cons.mpr ⟨hfnotin, h3⟩
                  · refine List.forall_mem_cons.mpr ⟨by rw [hname]; exact hnd, ?_⟩
                    intro x hx
                    exact ((lookup_append_single_eq_none filters f v (argFilterName x)).mp
                      (h4 x hx)).1
                · rintro ⟨h1, h2, h3, h4⟩
                  rw [List.map_cons, hname] at h3
                  obtain ⟨hfnotin, h3'⟩ := List.nodup_cons.mp h3
                  refine ⟨fun x hx => h1 x (List.mem_cons_of_mem arg hx),
                    fun x hx => h2 x (List.mem_cons_of_mem arg hx), h3', ?_⟩
                  intro x hx
                  refine (lookup_append_single_eq_none filters f v (argFilterName x)).mpr
                    ⟨h4 x (List.mem_cons_of_mem arg hx), ?_⟩
                  intro hxf
                  exact hfnotin (hxf ▸ List.mem_map_of_mem argFilterName hx)
            · simp only [findPrepareArgs, hsp]
              rw [if_pos hvf]
              constructor
              · rintro ⟨out, hout⟩
                simp at hout
              · rintro ⟨-, h2, -, -⟩
                have h2a := h2 arg (List.mem_cons_self arg rest)
                rw [hname] at h2a
                exact absurd h2a hvf
          · simp [findPrepareArgs, hsp, argFilterName, List.forall_mem_cons]


/-- C9: the find command's argument parsing returns an error exactly when some
argument does not split on the first equals sign into two parts, or names a
filter outside the seven valid filters, or repeats a filter name already
given; absent those three conditions the parsing loop accepts the
arguments. -/
theorem c9_find_prepare_error_iff (args : List String) :
    (∃ e, findPrepareArgs args [] = Except.error e) ↔
      ((∃ arg ∈ args, (splitN2 arg).length ≠ 2) ∨
       (∃ arg ∈ args, validFilters.contains (argFilterName arg) = false) ∨
       ¬ (args.map argFilterName).Nodup) := by
  rw [except_error_iff_not_ok, findPrepareArgs_ok_iff args []]
  constructor
  · intro hno
    by_contra hcon
    push_neg at hcon
    obtain ⟨h1, h2, h3⟩ := hcon
    refine hno ⟨h1, fun a ha => ?_, h3, fun a ha => rfl⟩
    cases hc : validFilters.contains (argFilterName a)
    · exact absurd hc (h2 a ha)
    · rfl
  · rintro (⟨a, ha, hP⟩ | ⟨a, ha, hP⟩ | hP) ⟨h1, h2, h3, -⟩
    · exact hP (h1 a ha)
    · rw [h2 a ha] at hP
      exact Bool.noConfusion hP
    · exact hP h3

end SpinCycle
